import Mathlib

/-!
A verification development for `src/main.py` of the `fm-scraper` repository
(a sequential crawl-and-extract scraper for room-rental listings).

The browser-facing parts of the program are modelled by pure environments:
a search-results page is a `SearchPage` (its listing tiles and whether a
"next page" control is present), and a listing page is a `ListingDOM`
recording, for each element the extractor looks up, whether the element is
present and what its text is.  Selenium's `find_element` raises
`NoSuchElementException` when the element is absent, which is modelled by
`Option`; `find_elements` returns a possibly-empty list and does not raise
(the source itself relies on this: line 233 guards the empty-list case
`property_main_features[0].text if property_main_features else "N/A"`),
which is modelled by a plain `List`.

The filesystem is modelled by `FsState`: the output CSV at row granularity
(each row a list of cells, `none` when the file does not exist), the
processed-set file `scraped_links.txt` at line granularity, and the
`listings_cache.json` contents.  The pagination loop, which the source
writes as a `while True`, is modelled with explicit fuel: `none` means the
loop has not terminated within the given fuel.
-/

namespace FMScraper

/-- Substring test on character lists: `needle` occurs contiguously in the
second argument.  Models Python's `in` operator on strings. -/
def hasSubList (needle : List Char) : List Char → Bool
  | [] => needle.isEmpty
  | c :: rest => needle.isPrefixOf (c :: rest) || hasSubList needle rest

/-- Python `pat in s` for strings. -/
def strContains (s pat : String) : Bool :=
  hasSubList pat.data s.data

/-- The `ListingData` dataclass of `src/main.py` (lines 16-28), fields in
declaration order.  `price_per_week` is an `Int` so that the sentinel `-1`
is representable. -/
structure ListingData where
  url : String
  district : String
  price_per_week : Int
  beds : String
  baths : String
  persons : String
  room_overview : String
  availability_min_stay : String
  property_features : String
  property_about : String
  flatmates_about : String
deriving DecidableEq

/-- `ListingData.__annotations__.keys()` in declaration order (used by
`_create_csv_file`, line 177). -/
def listingFieldNames : List String :=
  ["url", "district", "price_per_week", "beds", "baths", "persons",
   "room_overview", "availability_min_stay", "property_features",
   "property_about", "flatmates_about"]

/-- The header line written by `_create_csv_file`:
`",".join(ListingData.__annotations__.keys())`. -/
def csvHeaderLine : String :=
  String.intercalate "," listingFieldNames

/-- The CSV row written for one listing by `_save_listing_data`
(`pd.DataFrame([asdict(listing_data)])`, columns in dataclass field
order), at cell granularity. -/
def listingRow (d : ListingData) : List String :=
  [d.url, d.district, toString d.price_per_week, d.beds, d.baths, d.persons,
   d.room_overview, d.availability_min_stay, d.property_features,
   d.property_about, d.flatmates_about]

/-- One search-results page: the listing tiles (each with the `href` of its
`contentBox` anchor, `none` when that anchor is absent, cf. lines 147-155)
and whether a "Go to next page" control is present (`_has_next_page`,
lines 130-137).  "No listing tiles" (`_verify_listings_present` raising,
lines 122-128) is the `tiles = []` case. -/
structure SearchPage where
  tiles : List (Option String)
  hasNextPage : Bool
deriving DecidableEq

/-- `extract_listing_links_from_page` (lines 139-157): one link per tile
whose anchor is present; tiles with a missing anchor are skipped. -/
def linksFromPage (p : SearchPage) : List String :=
  p.tiles.filterMap id

/-- `"&" if "?" in self.base_url else "?"` (line 99). -/
def pageSeparator (base : String) : String :=
  if strContains base "?" then "&" else "?"

/-- `f"{self.base_url}{separator}page={page_num}"` (line 100). -/
def pageUrl (base : String) (n : Nat) : String :=
  base ++ pageSeparator base ++ "page=" ++ toString n

/-- The `while True` pagination loop of `extract_all_listing_links`
(lines 94-120), with the page environment keyed by URL and explicit fuel:
starting at page number `n`, visit `pageUrl base n`; if the page has no
tiles, stop contributing nothing; otherwise collect its links and stop if
it has no next-page control, else continue with `n + 1`.  `none` models a
loop that does not terminate within `fuel` iterations. -/
def extractAllListingLinksAux (base : String) (pages : String → SearchPage) :
    Nat → Nat → Option (List String)
  | 0, _ => none
  | fuel + 1, n =>
    if (pages (pageUrl base n)).tiles.isEmpty then some []
    else if (pages (pageUrl base n)).hasNextPage then
      (extractAllListingLinksAux base pages fuel (n + 1)).map
        (fun rest => linksFromPage (pages (pageUrl base n)) ++ rest)
    else some (linksFromPage (pages (pageUrl base n)))

/-- `extract_all_listing_links`: the pagination loop started at
`page_num = 1` (line 95). -/
def extractAllListingLinks (base : String) (pages : String → SearchPage)
    (fuel : Nat) : Option (List String) :=
  extractAllListingLinksAux base pages fuel 1

/-- Contents of `listings_cache.json` as written by `_cache_listings`
(lines 89-92). -/
structure ListingsCache where
  filter_url : String
  listing_links : List String
deriving DecidableEq

/-- The persistent state touched by the scraper: the output CSV (`none`
when the file does not exist; otherwise its rows, header row included),
the lines of `scraped_links.txt`, and the listings cache (`none` when
`listings_cache.json` does not exist). -/
structure FsState where
  csv : Option (List (List String))
  scrapedLines : List String
  cache : Option ListingsCache
deriving DecidableEq

/-- Line 53: `[link for link in all_listing_links if link not in
self.scraped_links]`. -/
def newListingLinks (allLinks scraped : List String) : List String :=
  allLinks.filter (fun link => ! scraped.contains link)

/-- The crawl-then-cache branch of `_get_listing_links` (lines 70-74):
run the pagination crawl and write its result to the cache keyed by the
current base URL. -/
def crawlAndCache (base : String) (pages : String → SearchPage) (fuel : Nat)
    (st : FsState) : Option (List String × FsState) :=
  (extractAllListingLinks base pages fuel).map
    (fun links => (links, { st with cache := some ⟨base, links⟩ }))

/-- `_get_listing_links` (lines 63-74): if the cache file exists and its
`filter_url` equals the current base URL, return the cached links and do
not crawl; otherwise crawl and cache the result. -/
def getListingLinks (base : String) (pages : String → SearchPage) (fuel : Nat)
    (st : FsState) : Option (List String × FsState) :=
  match st.cache with
  | some c =>
    if c.filter_url = base then some (c.listing_links, st)
    else crawlAndCache base pages fuel st
  | none => crawlAndCache base pages fuel st

/-- `int(re.search(r"\d+", text).group())`: `re.search(r"\d+", _)` finds
the leftmost maximal run of digit characters. -/
def firstDigitRun : List Char → Option (List Char)
  | [] => none
  | c :: rest =>
    if c.isDigit then some ((c :: rest).takeWhile Char.isDigit)
    else firstDigitRun rest

/-- `int(_)` on a string of decimal digits. -/
def natOfDigits (ds : List Char) : Nat :=
  ds.foldl (fun n c => 10 * n + (c.toNat - Char.toNat '0')) 0

/-- Lines 203-210: the price element's text is searched for the first
maximal digit run and converted with `int`; if the element is absent
(`NoSuchElementException`) or the text has no digit (`re.search` returns
`None`, so `.group()` raises `AttributeError`), the sentinel is `-1`. -/
def parsePricePerWeek : Option String → Int
  | none => -1
  | some s =>
    match firstDigitRun s.data with
    | none => -1
    | some ds => (natOfDigits ds : Int)

/-- `_get_property_data` (lines 225-238): `find_elements` yields the texts
of the feature value elements; indices 0/1/2 are taken when present,
`"N/A"` otherwise (the source's own truthiness/length guards). -/
def getPropertyData (vals : List String) : String × String × String :=
  (vals.getD 0 "N/A", vals.getD 1 "N/A", vals.getD 2 "N/A")

/-- One room-overview detail element: the texts of its title and subtitle
spans, `none` when the corresponding `find_element` raises. -/
structure DetailDOM where
  title : Option String
  subtitle : Option String
deriving DecidableEq

/-- Python `str.strip()`: drop whitespace from both ends. -/
def pyStrip (s : String) : String :=
  String.mk
    (((s.data.dropWhile Char.isWhitespace).reverse.dropWhile
        Char.isWhitespace).reverse)

/-- Python `str.lower()`: lower-case every character. -/
def pyLower (s : String) : String :=
  String.mk (s.data.map Char.toLower)

/-- Line 259: `f"{title_text}{f' ({subtitle_text})' if subtitle_text else
''}"`, where both texts have been `.strip()`-ed (lines 257-258). -/
def detailText (t s : String) : String :=
  pyStrip t ++ (if pyStrip s ≠ "" then " (" ++ pyStrip s ++ ")" else "")

/-- Line 262: `"stay" in title_text.lower() or "available" in
subtitle_text.lower()`. -/
def detailHit (t s : String) : Bool :=
  strContains (pyLower (pyStrip t)) "stay"
    || strContains (pyLower (pyStrip s)) "available"

/-- The loop body of `_get_room_data` (lines 250-263): accumulate the
formatted details and update `availability_min_stay` on each hit; a
missing title or subtitle element raises, aborting the whole loop
(`none`). -/
def roomLoop : List DetailDOM → List String → String →
    Option (List String × String)
  | [], acc, avail => some (acc, avail)
  | d :: rest, acc, avail =>
    match d.title, d.subtitle with
    | some t, some s =>
      roomLoop rest (acc ++ [detailText t s])
        (if detailHit t s then detailText t s else avail)
    | some _, none => none
    | none, _ => none

/-- `_get_room_data` (lines 240-267): on success the overview is the
comma-join of the details and availability starts at `"N/A"`; an exception
inside the loop yields `("N/A", "N/A")` for both fields. -/
def getRoomData (details : List DetailDOM) : String × String :=
  match roomLoop details [] "N/A" with
  | some (ov, avail) => (String.intercalate ", " ov, avail)
  | none => ("N/A", "N/A")

/-- The listing-page DOM as seen by `get_listing_data` and its helpers:
presence of the top-level tracking container (lines 195-201), the price
element's text, the property feature value texts, the room detail
elements, the about-section feature texts, and the three single about
elements. -/
structure ListingDOM where
  hasContainer : Bool
  priceText : Option String
  propertyFeatureValues : List String
  roomDetails : List DetailDOM
  featureTexts : List String
  propertyAbout : Option String
  flatmatesAbout : Option String
  districtText : Option String
deriving DecidableEq

/-- `_get_about_data` (lines 269-310), returning
(property_features, property_about, flatmates_about, district). -/
def getAboutData (dom : ListingDOM) : String × String × String × String :=
  (String.intercalate ", " dom.featureTexts,
   dom.propertyAbout.getD "N/A",
   dom.flatmatesAbout.getD "N/A",
   dom.districtText.getD "N/A")

/-- `get_listing_data` (lines 190-223): `None` when the top-level
container is absent; otherwise a `ListingData` assembled from the field
extractors. -/
def getListingData (listingLink : String) (dom : ListingDOM) :
    Option ListingData :=
  if dom.hasContainer then
    let price := parsePricePerWeek dom.priceText
    let prop := getPropertyData dom.propertyFeatureValues
    let room := getRoomData dom.roomDetails
    let about := getAboutData dom
    some { url := listingLink
           district := about.2.2.2
           price_per_week := price
           beds := prop.1
           baths := prop.2.1
           persons := prop.2.2
           room_overview := room.1
           availability_min_stay := room.2
           property_features := about.1
           property_about := about.2.1
           flatmates_about := about.2.2.1 }
  else none

/-- The two kinds of append performed while scraping: one CSV row
(`_save_listing_data`) and one processed-set line (`_save_scraped_link`). -/
inductive FileOp where
  | appendCsv (row : List String)
  | appendScraped (link : String)
deriving DecidableEq

/-- Effect of one file append on the persistent state.  `to_csv` with
`mode="a"` creates the file when absent, hence the `getD []`. -/
def applyOp (st : FsState) : FileOp → FsState
  | .appendCsv row => { st with csv := some (st.csv.getD [] ++ [row]) }
  | .appendScraped link =>
    { st with scrapedLines := st.scrapedLines ++ [link] }

/-- The file appends performed for one link by the loop body of
`_scrape_listings` (lines 162-167): on successful extraction, first the
CSV row, then the processed-set line; nothing otherwise. -/
def listingOps (env : String → ListingDOM) (link : String) : List FileOp :=
  match getListingData link (env link) with
  | some d => [.appendCsv (listingRow d), .appendScraped link]
  | none => []

/-- The whole append sequence of `_scrape_listings` over a list of links,
in order. -/
def scrapeOps (env : String → ListingDOM) (links : List String) :
    List FileOp :=
  links.flatMap (listingOps env)

/-- `_scrape_listings` (lines 159-168) as its effect on the persistent
state. -/
def scrapeListings (env : String → ListingDOM) (links : List String)
    (st : FsState) : FsState :=
  (scrapeOps env links).foldl applyOp st

/-- An interrupted `_scrape_listings`: only the first `k` file appends
have happened when the process dies. -/
def crashState (env : String → ListingDOM) (links : List String)
    (st : FsState) (k : Nat) : FsState :=
  ((scrapeOps env links).take k).foldl applyOp st

/-- The CSV rows a scrape over `links` appends: one row per link whose
extraction succeeds, in order. -/
def csvRowsOf (env : String → ListingDOM) (links : List String) :
    List (List String) :=
  links.filterMap (fun l => (getListingData l (env l)).map listingRow)

/-- The processed-set lines a scrape over `links` appends: the links whose
extraction succeeds, in order. -/
def successLinks (env : String → ListingDOM) (links : List String) :
    List String :=
  links.filter (fun l => (getListingData l (env l)).isSome)

/-- `FlatmatesScraper.run` (lines 48-61): discover links (cache or crawl),
filter out links already in the processed set read at startup, create the
CSV with its header line if the file does not exist, then scrape the new
links.  `none` models a crawl that does not terminate within the fuel. -/
def runScraper (env : String → ListingDOM) (pages : String → SearchPage)
    (base : String) (fuel : Nat) (st : FsState) : Option FsState :=
  match getListingLinks base pages fuel st with
  | none => none
  | some (allLinks, st1) =>
    let newLinks := newListingLinks allLinks st.scrapedLines
    let st2 :=
      if st1.csv.isNone then { st1 with csv := some [listingFieldNames] }
      else st1
    some (scrapeListings env newLinks st2)

/-- Taken from the wording of the specification, for comparison with
`getRoomData`: the last room-overview detail whose (stripped) title
contains `"stay"` or whose (stripped) subtitle contains `"available"`,
case-insensitively, formatted as `title (subtitle)` when the subtitle is
non-empty; `"N/A"` when no detail matches. -/
def specAvailability (details : List (String × String)) : String :=
  ((details.filter (fun p => detailHit p.1 p.2)).getLast?).elim "N/A"
    (fun p => detailText p.1 p.2)

/-- The loop-exit condition of the pagination crawl at page number `k`:
the page has no listing tiles, or it has no next-page control. -/
def pageStops (base : String) (pages : String → SearchPage) (k : Nat) : Bool :=
  (pages (pageUrl base k)).tiles.isEmpty
    || ! (pages (pageUrl base k)).hasNextPage

/-- Concrete listing DOM used by witnesses: every element present, empty
room-detail and feature collections. -/
def domA : ListingDOM :=
  ⟨true, some "$350 per week", ["2", "1", "3"], [], [], none, none,
   some "Sydney"⟩

/-- Environment mapping every listing URL to `domA`. -/
def envA : String → ListingDOM := fun _ => domA

/-- The `ListingData` value `domA` produces for the URL `"a"`. -/
def dA : ListingData :=
  { url := "a", district := "Sydney", price_per_week := 350, beds := "2",
    baths := "1", persons := "3", room_overview := "",
    availability_min_stay := "N/A", property_features := "",
    property_about := "N/A", flatmates_about := "N/A" }

/-- The CSV row `domA` produces for the URL `"a"`. -/
def rowA : List String :=
  ["a", "Sydney", "350", "2", "1", "3", "", "N/A", "", "N/A", "N/A"]

/-- Concrete state used by witnesses: headered CSV, empty processed set,
cache holding the single link `"a"` for filter URL `"B"`. -/
def stA : FsState :=
  { csv := some [listingFieldNames], scrapedLines := [],
    cache := some ⟨"B", ["a"]⟩ }

/-- A search environment with no tiles anywhere. -/
def noPages : String → SearchPage := fun _ => ⟨[], false⟩

/-- A two-page search environment for base URL `"B"`: page 1 has two
linked tiles and one tile with a missing anchor, page 2 has one tile and
no next-page control. -/
def pagesW : String → SearchPage := fun u =>
  if u = "B?page=1" then ⟨[some "L1", none, some "L2"], true⟩
  else if u = "B?page=2" then ⟨[some "L3"], false⟩
  else ⟨[], false⟩

/-- A search environment in which every page has a tile and a next-page
control, so the crawl never terminates. -/
def pagesLoop : String → SearchPage := fun _ => ⟨[some "L"], true⟩

/-- A listing DOM whose container is present but every field element is
absent and every element collection is empty. -/
def domEmpty : ListingDOM := ⟨true, none, [], [], [], none, none, none⟩

/-- A listing DOM whose top-level tracking container is absent. -/
def domNoContainer : ListingDOM :=
  ⟨false, none, [], [], [], none, none, none⟩

/-- Environment mapping every listing URL to `domNoContainer`. -/
def envNoContainer : String → ListingDOM := fun _ => domNoContainer

lemma contains_eq_mem_decide (l : List String) (a : String) :
    l.contains a = decide (a ∈ l) := by
  by_cases h : a ∈ l
  · simp [h, List.elem_iff.mpr h]
  · rw [decide_eq_false h]
    exact Bool.eq_false_iff.mpr (fun hc => h (List.elem_iff.mp hc))

lemma mem_newListingLinks (allLinks scraped : List String) (l : String) :
    l ∈ newListingLinks allLinks scraped ↔ l ∈ allLinks ∧ l ∉ scraped := by
  simp [newListingLinks, List.mem_filter, contains_eq_mem_decide]

/-- C1: a discovered listing URL already present in the persisted
processed set is excluded from the list of new listings to process; the
list of new links (line 53 of `src/main.py`) contains exactly the
discovered links not in the persisted set, and, being a sublist of the
discovered list, keeps them in discovery order. -/
theorem c1_skip_processed_links (allLinks scraped : List String) :
    (∀ l, l ∈ newListingLinks allLinks scraped ↔ l ∈ allLinks ∧ l ∉ scraped)
    ∧ (newListingLinks allLinks scraped).Sublist allLinks :=
  ⟨fun l => mem_newListingLinks allLinks scraped l, List.filter_sublist _⟩

/-- C6: when the listings cache exists and its stored `filter_url` equals
the current base URL, `_get_listing_links` returns the cached links with
the state unchanged, without consulting the pagination crawl (the result
is the same for every page environment and fuel, in particular when the
crawl would not terminate); otherwise it runs the crawl and writes its
full result to the cache keyed by the current base URL. -/
theorem c6_listing_cache :
    (∀ (base : String) (pages : String → SearchPage) (fuel : Nat)
       (st : FsState) (c : ListingsCache),
       st.cache = some c → c.filter_url = base →
       getListingLinks base pages fuel st = some (c.listing_links, st))
    ∧ (∀ (base : String) (pages : String → SearchPage) (fuel : Nat)
         (st : FsState),
         (∀ c, st.cache = some c → c.filter_url ≠ base) →
         getListingLinks base pages fuel st =
           (extractAllListingLinks base pages fuel).map
             (fun links => (links, { st with cache := some ⟨base, links⟩ }))) := by
  constructor
  · intro base pages fuel st c hc hurl
    simp [getListingLinks, hc, hurl]
  · intro base pages fuel st h
    cases hc : st.cache with
    | none => simp [getListingLinks, hc, crawlAndCache]
    | some c => simp [getListingLinks, hc, h c hc, crawlAndCache]

/-- Witness for C6: a concrete cache hit with fuel `0` (the crawl itself
would return `none`, so no crawl was consulted), and a concrete cache miss
whose crawl result is written to the cache. -/
theorem c6_listing_cache_witness :
    getListingLinks "B" pagesW 0 stA = some (["a"], stA)
    ∧ getListingLinks "B" pagesW 5
        { csv := none, scrapedLines := [], cache := none } =
        some (["L1", "L2", "L3"],
          { csv := none, scrapedLines := [],
            cache := some ⟨"B", ["L1", "L2", "L3"]⟩ }) := by
  constructor
  · exact c6_listing_cache.1 "B" pagesW 0 stA ⟨"B", ["a"]⟩ rfl rfl
  · refine (c6_listing_cache.2 "B" pagesW 5
      { csv := none, scrapedLines := [], cache := none }
      (fun c hc => by simp at hc)).trans (by decide)

lemma takeWhile_all_append (p : Char → Bool) (l1 l2 : List Char)
    (h1 : ∀ c ∈ l1, p c = true)
    (h2 : ∀ c, l2.head? = some c → p c = false) :
    (l1 ++ l2).takeWhile p = l1 := by
  induction l1 with
  | nil =>
    cases l2 with
    | nil => rfl
    | cons c t => simp [List.takeWhile_cons, h2 c rfl]
  | cons c t ih =>
    simp [List.takeWhile_cons, h1 c (List.mem_cons_self c t),
      ih (fun x hx => h1 x (List.mem_cons_of_mem c hx))]

lemma firstDigitRun_of_no_digit (l : List Char)
    (h : ∀ c ∈ l, c.isDigit = false) : firstDigitRun l = none := by
  induction l with
  | nil => rfl
  | cons c t ih =>
    simp [firstDigitRun, h c (List.mem_cons_self c t),
      ih (fun x hx => h x (List.mem_cons_of_mem c hx))]

lemma firstDigitRun_append (pre run post : List Char)
    (hpre : ∀ c ∈ pre, c.isDigit = false) (hne : run ≠ [])
    (hrun : ∀ c ∈ run, c.isDigit = true)
    (hpost : ∀ c, post.head? = some c → c.isDigit = false) :
    firstDigitRun (pre ++ run ++ post) = some run := by
  induction pre with
  | nil =>
    cases run with
    | nil => exact absurd rfl hne
    | cons r rs =>
      have hr : r.isDigit = true := hrun r (List.mem_cons_self r rs)
      have hall : ∀ c ∈ r :: rs, c.isDigit = true := hrun
      simp only [List.nil_append, List.cons_append, firstDigitRun, hr,
        if_true]
      exact congrArg some
        (takeWhile_all_append Char.isDigit (r :: rs) post hall hpost)
  | cons c t ih =>
    have hc : c.isDigit = false := hpre c (List.mem_cons_self c t)
    simp only [List.cons_append, firstDigitRun, hc, Bool.false_eq_true,
      if_false]
    exact ih (fun x hx => hpre x (List.mem_cons_of_mem c hx))

/-- C9: `price_per_week` is the integer value of the first maximal run of
digit characters in the price element's text; it is the sentinel `-1` when
the element is absent or the text contains no digit. -/
theorem c9_price_parse :
    parsePricePerWeek none = -1
    ∧ (∀ s : String, (∀ c ∈ s.data, c.isDigit = false) →
        parsePricePerWeek (some s) = -1)
    ∧ (∀ pre run post : List Char,
        (∀ c ∈ pre, c.isDigit = false) → run ≠ [] →
        (∀ c ∈ run, c.isDigit = true) →
        (∀ c, post.head? = some c → c.isDigit = false) →
        parsePricePerWeek (some (String.mk (pre ++ run ++ post))) =
          (natOfDigits run : Int)) := by
  refine ⟨rfl, ?_, ?_⟩
  · intro s h
    simp [parsePricePerWeek, firstDigitRun_of_no_digit s.data h]
  · intro pre run post hpre hne hrun hpost
    have h := firstDigitRun_append pre run post hpre hne hrun hpost
    rw [List.append_assoc] at h
    simp [parsePricePerWeek, h]

/-- Witness for C9: `"$350 per week"` parses to `350` (first digit run
`350`) and `"$1,200"` parses to `1` (the comma ends the first run). -/
theorem c9_price_parse_witness :
    parsePricePerWeek (some (String.mk
      ("$".data ++ "350".data ++ " per week".data))) = 350
    ∧ parsePricePerWeek (some (String.mk
        ("$".data ++ "1".data ++ ",200".data))) = 1 := by
  constructor
  · exact (c9_price_parse.2.2 "$".data "350".data " per week".data
      (by decide) (by decide) (by decide) (by decide)).trans (by decide)
  · exact (c9_price_parse.2.2 "$".data "1".data ",200".data
      (by decide) (by decide) (by decide) (by decide)).trans (by decide)

lemma roomLoop_missing_element :
    ∀ (details : List DetailDOM) (acc : List String) (avail : String),
      (∃ x ∈ details, x.title = none ∨ x.subtitle = none) →
      roomLoop details acc avail = none := by
  intro details
  induction details with
  | nil => intro acc avail h; simp at h
  | cons d rest ih =>
    intro acc avail h
    cases ht : d.title with
    | none => simp [roomLoop, ht]
    | some t =>
      cases hs : d.subtitle with
      | none => simp [roomLoop, ht, hs]
      | some s =>
        simp only [roomLoop, ht, hs]
        obtain ⟨x, hx, hmiss⟩ := h
        rcases List.mem_cons.mp hx with hxd | hxr
        · subst hxd
          rcases hmiss with h1 | h1
          · rw [ht] at h1; exact absurd h1 (by simp)
          · rw [hs] at h1; exact absurd h1 (by simp)
        · exact ih _ _ ⟨x, hxr, hmiss⟩

lemma getRoomData_missing_element (details : List DetailDOM)
    (h : ∃ x ∈ details, x.title = none ∨ x.subtitle = none) :
    getRoomData details = ("N/A", "N/A") := by
  simp [getRoomData, roomLoop_missing_element details [] "N/A" h]

lemma roomLoop_all_present :
    ∀ (details : List (String × String)) (acc : List String) (avail : String),
      roomLoop (details.map (fun p => ⟨some p.1, some p.2⟩)) acc avail =
        some (acc ++ details.map (fun p => detailText p.1 p.2),
          details.foldl
            (fun a p => if detailHit p.1 p.2 then detailText p.1 p.2 else a)
            avail) := by
  intro details
  induction details with
  | nil => intro acc avail; simp [roomLoop]
  | cons p rest ih =>
    intro acc avail
    simp [roomLoop, ih, List.append_assoc]

lemma foldl_last_matching {α β : Type} (hit : α → Bool) (fmt : α → β) :
    ∀ (l : List α) (a : β),
      l.foldl (fun acc x => if hit x then fmt x else acc) a =
        ((l.filter hit).getLast?).elim a fmt := by
  intro l
  induction l with
  | nil => intro a; rfl
  | cons x t ih =>
    intro a
    rw [List.foldl_cons, ih, List.filter_cons]
    cases hx : hit x with
    | false => simp
    | true =>
      simp only [if_true, List.getLast?_cons]
      cases hft : (List.filter hit t).getLast? with
      | none => simp [hft]
      | some y => simp [hft]

/-- C3 counterexample: on a listing page whose container is present but
whose room-detail and property-feature element collections are empty
(`find_elements` returning no elements), extraction succeeds but
`room_overview` and `property_features` are the empty string (the join of
no items), not the sentinel `"N/A"` the claim requires for a missing text
field. -/
theorem c3_counterexample :
    getListingData "u" domEmpty =
      some { url := "u", district := "N/A", price_per_week := -1,
             beds := "N/A", baths := "N/A", persons := "N/A",
             room_overview := "", availability_min_stay := "N/A",
             property_features := "", property_about := "N/A",
             flatmates_about := "N/A" }
    ∧ ("" : String) ≠ "N/A" := by
  constructor
  · rfl
  · decide

/-- C3 as amended: each field extraction is independently fault-tolerant
and a missing field never aborts the listing (extraction succeeds whenever
the container is present); absent single elements yield the sentinels
(`-1` for price, `"N/A"` for district, property_about, flatmates_about;
`"N/A"` for beds/baths/persons when the feature-value collection is
empty; `"N/A"` for both room fields when a title or subtitle lookup
fails), but when the room-detail or feature element collections are empty
the joined fields `room_overview` and `property_features` are the empty
string rather than `"N/A"`. -/
theorem c3_field_fault_tolerance (dom : ListingDOM) (url : String)
    (h : dom.hasContainer = true) :
    ∃ d, getListingData url dom = some d
      ∧ (dom.priceText = none → d.price_per_week = -1)
      ∧ (dom.propertyFeatureValues = [] →
          d.beds = "N/A" ∧ d.baths = "N/A" ∧ d.persons = "N/A")
      ∧ (dom.roomDetails = [] →
          d.room_overview = "" ∧ d.availability_min_stay = "N/A")
      ∧ ((∃ x ∈ dom.roomDetails, x.title = none ∨ x.subtitle = none) →
          d.room_overview = "N/A" ∧ d.availability_min_stay = "N/A")
      ∧ (dom.featureTexts = [] → d.property_features = "")
      ∧ (dom.propertyAbout = none → d.property_about = "N/A")
      ∧ (dom.flatmatesAbout = none → d.flatmates_about = "N/A")
      ∧ (dom.districtText = none → d.district = "N/A") := by
  have hd : getListingData url dom = some
      { url := url, district := (getAboutData dom).2.2.2,
        price_per_week := parsePricePerWeek dom.priceText,
        beds := (getPropertyData dom.propertyFeatureValues).1,
        baths := (getPropertyData dom.propertyFeatureValues).2.1,
        persons := (getPropertyData dom.propertyFeatureValues).2.2,
        room_overview := (getRoomData dom.roomDetails).1,
        availability_min_stay := (getRoomData dom.roomDetails).2,
        property_features := (getAboutData dom).1,
        property_about := (getAboutData dom).2.1,
        flatmates_about := (getAboutData dom).2.2.1 } := by
    simp [getListingData, h]
  refine ⟨_, hd, ?_, ?_, ?_, ?_, ?_, ?_, ?_, ?_⟩
  · intro hp; simp [parsePricePerWeek, hp]
  · intro hp; simp [getPropertyData, hp]
  · intro hp; simp [getRoomData, roomLoop, hp]; rfl
  · intro hp; simp [getRoomData_missing_element dom.roomDetails hp]
  · intro hp; simp [getAboutData, hp]; rfl
  · intro hp; simp [getAboutData, hp]
  · intro hp; simp [getAboutData, hp]
  · intro hp; simp [getAboutData, hp]

/-- Witness for C3 (amended): the all-absent listing DOM realises every
hypothesis and every sentinel at once. -/
theorem c3_field_fault_tolerance_witness :
    domEmpty.hasContainer = true
    ∧ ∃ d, getListingData "u" domEmpty = some d
      ∧ (domEmpty.priceText = none → d.price_per_week = -1)
      ∧ (domEmpty.propertyFeatureValues = [] →
          d.beds = "N/A" ∧ d.baths = "N/A" ∧ d.persons = "N/A")
      ∧ (domEmpty.roomDetails = [] →
          d.room_overview = "" ∧ d.availability_min_stay = "N/A")
      ∧ ((∃ x ∈ domEmpty.roomDetails, x.title = none ∨ x.subtitle = none) →
          d.room_overview = "N/A" ∧ d.availability_min_stay = "N/A")
      ∧ (domEmpty.featureTexts = [] → d.property_features = "")
      ∧ (domEmpty.propertyAbout = none → d.property_about = "N/A")
      ∧ (domEmpty.flatmatesAbout = none → d.flatmates_about = "N/A")
      ∧ (domEmpty.districtText = none → d.district = "N/A") :=
  ⟨rfl, c3_field_fault_tolerance domEmpty "u" rfl⟩

/-- C10: when every room detail has its title and subtitle elements,
`availability_min_stay` is the last detail (formatted as
`title (subtitle)` when the stripped subtitle is non-empty, else the
title) whose title contains `"stay"` or whose subtitle contains
`"available"` case-insensitively, and `"N/A"` when no detail matches
(`specAvailability` renders exactly this selection rule); when the detail
collection is empty it is `"N/A"`; and when some title or subtitle
element is absent both room fields fall back to `"N/A"`. -/
theorem c10_availability_last_match :
    (∀ details : List (String × String),
      (getRoomData (details.map (fun p => ⟨some p.1, some p.2⟩))).2 =
        specAvailability details)
    ∧ (getRoomData []).2 = "N/A"
    ∧ (∀ details : List DetailDOM,
        (∃ x ∈ details, x.title = none ∨ x.subtitle = none) →
        getRoomData details = ("N/A", "N/A")) := by
  refine ⟨?_, rfl, fun details h => getRoomData_missing_element details h⟩
  intro details
  rw [getRoomData, roomLoop_all_present details [] "N/A"]
  exact foldl_last_matching (fun p => detailHit p.1 p.2)
    (fun p => detailText p.1 p.2) details "N/A"

/-- Witness for C10: concrete detail lists exercising the last-match rule
(two matching details: the later one wins), and the missing-element
fallback. -/
theorem c10_availability_last_match_witness :
    (getRoomData
        [⟨some "Bond", some "Available Now"⟩,
         ⟨some "Minimum stay", some "3 months"⟩,
         ⟨some "Furnished", some ""⟩]).2 = "Minimum stay (3 months)"
    ∧ getRoomData [⟨some "t", none⟩] = ("N/A", "N/A") := by
  constructor
  · exact (c10_availability_last_match.1
      [("Bond", "Available Now"), ("Minimum stay", "3 months"),
       ("Furnished", "")]).trans (by decide)
  · exact c10_availability_last_match.2.2 [⟨some "t", none⟩]
      ⟨⟨some "t", none⟩, by simp, Or.inr rfl⟩

lemma scrapeOps_cons (env : String → ListingDOM) (l : String)
    (ls : List String) :
    scrapeOps env (l :: ls) = listingOps env l ++ scrapeOps env ls := by
  simp [scrapeOps]

lemma scrapeOps_append (env : String → ListingDOM) (l1 l2 : List String) :
    scrapeOps env (l1 ++ l2) = scrapeOps env l1 ++ scrapeOps env l2 := by
  simp [scrapeOps]

lemma scrapeListings_spec (env : String → ListingDOM) :
    ∀ (links : List String) (st : FsState) (c : List (List String)),
      st.csv = some c →
      scrapeListings env links st =
        { csv := some (c ++ csvRowsOf env links),
          scrapedLines := st.scrapedLines ++ successLinks env links,
          cache := st.cache } := by
  intro links
  induction links with
  | nil =>
    intro st c hc
    cases st
    simp_all [scrapeListings, scrapeOps, csvRowsOf, successLinks]
  | cons l ls ih =>
    intro st c hc
    rw [scrapeListings, scrapeOps_cons, List.foldl_append]
    cases hg : getListingData l (env l) with
    | none =>
      have hops : listingOps env l = [] := by simp [listingOps, hg]
      rw [hops, List.foldl_nil]
      have hrest := ih st c hc
      rw [scrapeListings] at hrest
      rw [hrest]
      simp [csvRowsOf, successLinks, hg]
    | some d =>
      have hops : listingOps env l =
          [.appendCsv (listingRow d), .appendScraped l] := by
        simp [listingOps, hg]
      rw [hops]
      have hst : List.foldl applyOp st
          [FileOp.appendCsv (listingRow d), FileOp.appendScraped l] =
          { csv := some (c ++ [listingRow d]),
            scrapedLines := st.scrapedLines ++ [l], cache := st.cache } := by
        simp [applyOp, hc]
      rw [hst]
      have hrest := ih
        { csv := some (c ++ [listingRow d]),
          scrapedLines := st.scrapedLines ++ [l], cache := st.cache }
        (c ++ [listingRow d]) rfl
      rw [scrapeListings] at hrest
      rw [hrest]
      simp [csvRowsOf, successLinks, hg]

lemma crawlAndCache_preserves (base : String) (pages : String → SearchPage)
    (fuel : Nat) (st : FsState) (al : List String) (st1 : FsState)
    (h : crawlAndCache base pages fuel st = some (al, st1)) :
    st1.csv = st.csv ∧ st1.scrapedLines = st.scrapedLines := by
  obtain ⟨links, _, hf⟩ := Option.map_eq_some'.mp h
  have hsnd := congrArg Prod.snd hf
  simp only at hsnd
  rw [← hsnd]
  exact ⟨rfl, rfl⟩

lemma getListingLinks_preserves (base : String) (pages : String → SearchPage)
    (fuel : Nat) (st : FsState) (al : List String) (st1 : FsState)
    (h : getListingLinks base pages fuel st = some (al, st1)) :
    st1.csv = st.csv ∧ st1.scrapedLines = st.scrapedLines := by
  cases hc : st.cache with
  | none =>
    simp only [getListingLinks, hc] at h
    exact crawlAndCache_preserves base pages fuel st al st1 h
  | some c =>
    by_cases hurl : c.filter_url = base
    · simp only [getListingLinks, hc, hurl, if_true] at h
      cases h
      exact ⟨rfl, rfl⟩
    · simp only [getListingLinks, hc, hurl, if_false] at h
      exact crawlAndCache_preserves base pages fuel st al st1 h

lemma runScraper_eq (env : String → ListingDOM) (pages : String → SearchPage)
    (base : String) (fuel : Nat) (st : FsState) (al : List String)
    (st1 : FsState) (h : getListingLinks base pages fuel st = some (al, st1)) :
    runScraper env pages base fuel st =
      some (scrapeListings env (newListingLinks al st.scrapedLines)
        (if st1.csv.isNone then { st1 with csv := some [listingFieldNames] }
         else st1)) := by
  simp only [runScraper, h]

lemma runScraper_spec (env : String → ListingDOM)
    (pages : String → SearchPage) (base : String) (fuel : Nat) (st : FsState)
    (al : List String) (st1 : FsState) (c : List (List String))
    (h : getListingLinks base pages fuel st = some (al, st1))
    (hc : st.csv = some c) :
    runScraper env pages base fuel st =
      some { csv := some
               (c ++ csvRowsOf env (newListingLinks al st.scrapedLines)),
             scrapedLines := st.scrapedLines ++
               successLinks env (newListingLinks al st.scrapedLines),
             cache := st1.cache } := by
  obtain ⟨h1, h2⟩ := getListingLinks_preserves base pages fuel st al st1 h
  rw [runScraper_eq env pages base fuel st al st1 h]
  have hnone : st1.csv.isNone = false := by rw [h1, hc]; rfl
  rw [hnone]
  simp only [Bool.false_eq_true, if_false]
  rw [scrapeListings_spec env (newListingLinks al st.scrapedLines) st1 c
    (h1.trans hc), h2]

lemma runScraper_spec_create (env : String → ListingDOM)
    (pages : String → SearchPage) (base : String) (fuel : Nat) (st : FsState)
    (al : List String) (st1 : FsState)
    (h : getListingLinks base pages fuel st = some (al, st1))
    (hc : st.csv = none) :
    runScraper env pages base fuel st =
      some { csv := some (listingFieldNames ::
               csvRowsOf env (newListingLinks al st.scrapedLines)),
             scrapedLines := st.scrapedLines ++
               successLinks env (newListingLinks al st.scrapedLines),
             cache := st1.cache } := by
  obtain ⟨h1, h2⟩ := getListingLinks_preserves base pages fuel st al st1 h
  rw [runScraper_eq env pages base fuel st al st1 h]
  have hnone : st1.csv.isNone = true := by rw [h1, hc]; rfl
  rw [hnone]
  simp only [if_true]
  rw [scrapeListings_spec env (newListingLinks al st.scrapedLines)
    { st1 with csv := some [listingFieldNames] } [listingFieldNames] rfl]
  simp [h2]

/-- C7: the header line is the 11 `ListingData` field names in declaration
order, comma-separated; on a first run (CSV absent) the run produces a CSV
whose first row is exactly that header followed by the data rows; on later
runs (CSV present) the existing contents are kept as a prefix with no new
header; and every appended row is a `listingRow`, i.e. has exactly the 11
columns in field order. -/
theorem c7_csv_header_shape :
    csvHeaderLine = "url,district,price_per_week,beds,baths,persons,room_overview,availability_min_stay,property_features,property_about,flatmates_about"
    ∧ listingFieldNames.length = 11
    ∧ (∀ d : ListingData, (listingRow d).length = 11)
    ∧ (∀ (env : String → ListingDOM) (links : List String)
         (r : List String), r ∈ csvRowsOf env links → ∃ d, r = listingRow d)
    ∧ (∀ (env : String → ListingDOM) (pages : String → SearchPage)
         (base : String) (fuel : Nat) (st : FsState) (al : List String)
         (st1 : FsState),
         getListingLinks base pages fuel st = some (al, st1) →
         st.csv = none →
         (runScraper env pages base fuel st).map FsState.csv =
           some (some (listingFieldNames ::
             csvRowsOf env (newListingLinks al st.scrapedLines))))
    ∧ (∀ (env : String → ListingDOM) (pages : String → SearchPage)
         (base : String) (fuel : Nat) (st : FsState) (al : List String)
         (st1 : FsState) (c : List (List String)),
         getListingLinks base pages fuel st = some (al, st1) →
         st.csv = some c →
         (runScraper env pages base fuel st).map FsState.csv =
           some (some (c ++
             csvRowsOf env (newListingLinks al st.scrapedLines)))) := by
  refine ⟨rfl, rfl, fun d => rfl, ?_, ?_, ?_⟩
  · intro env links r hr
    obtain ⟨l, _, hmap⟩ := List.mem_filterMap.mp hr
    obtain ⟨d, _, hd⟩ := Option.map_eq_some'.mp hmap
    exact ⟨d, hd.symm⟩
  · intro env pages base fuel st al st1 h hc
    rw [runScraper_spec_create env pages base fuel st al st1 h hc]
    rfl
  · intro env pages base fuel st al st1 c h hc
    rw [runScraper_spec env pages base fuel st al st1 c h hc]
    rfl

/-- Witness for C7: a first run over `pagesW` from an empty filesystem
produces the headered CSV, and a later run over an already-headered CSV
keeps it as a prefix. -/
theorem c7_csv_header_shape_witness :
    (runScraper envNoContainer pagesW "B" 5
        { csv := none, scrapedLines := [], cache := none }).map FsState.csv =
      some (some (listingFieldNames ::
        csvRowsOf envNoContainer
          (newListingLinks ["L1", "L2", "L3"] [])))
    ∧ (runScraper envA noPages "B" 0 stA).map FsState.csv =
      some (some ([listingFieldNames] ++
        csvRowsOf envA (newListingLinks ["a"] []))) := by
  constructor
  · exact c7_csv_header_shape.2.2.2.2.1 envNoContainer pagesW "B" 5
      { csv := none, scrapedLines := [], cache := none }
      ["L1", "L2", "L3"]
      { csv := none, scrapedLines := [],
        cache := some ⟨"B", ["L1", "L2", "L3"]⟩ } (by decide) rfl
  · exact c7_csv_header_shape.2.2.2.2.2 envA noPages "B" 0 stA ["a"] stA
      [listingFieldNames] (by decide) rfl

/-- C5: when every discovered listing URL is already in the processed set
read at startup, the run filters out every link and appends no row: the
output CSV is unchanged (skip-on-resume is idempotent). -/
theorem c5_rerun_idempotent (env : String → ListingDOM)
    (pages : String → SearchPage) (base : String) (fuel : Nat) (st : FsState)
    (c : List (List String)) (al : List String) (st1 : FsState)
    (h : getListingLinks base pages fuel st = some (al, st1))
    (hc : st.csv = some c)
    (hall : ∀ l ∈ al, l ∈ st.scrapedLines) :
    (runScraper env pages base fuel st).map FsState.csv = some (some c) := by
  have hnil : newListingLinks al st.scrapedLines = [] := by
    rw [newListingLinks, List.filter_eq_nil_iff]
    intro a ha
    simp [contains_eq_mem_decide, hall a ha]
  rw [runScraper_spec env pages base fuel st al st1 c h hc]
  simp [hnil, csvRowsOf]

/-- Witness for C5: re-running with the cache link `"a"` already in the
processed set leaves the single-header CSV unchanged. -/
theorem c5_rerun_idempotent_witness :
    (runScraper envA noPages "B" 0
        { csv := some [listingFieldNames], scrapedLines := ["a"],
          cache := some ⟨"B", ["a"]⟩ }).map FsState.csv =
      some (some [listingFieldNames]) :=
  c5_rerun_idempotent envA noPages "B" 0
    { csv := some [listingFieldNames], scrapedLines := ["a"],
      cache := some ⟨"B", ["a"]⟩ }
    [listingFieldNames] ["a"]
    { csv := some [listingFieldNames], scrapedLines := ["a"],
      cache := some ⟨"B", ["a"]⟩ }
    (by decide) rfl (by decide)

/-- C8: when the top-level listing-data container is absent,
`get_listing_data` returns `None`; the scrape loop then performs no file
append for that URL (its presence in the link list has no effect on the
persisted state), and since the URL is not added to the processed set it
is selected again as a new link on a future run. -/
theorem c8_container_absent_retry (env : String → ListingDOM) (url : String)
    (st : FsState) (allLinks pre post : List String)
    (h : (env url).hasContainer = false) :
    getListingData url (env url) = none
    ∧ scrapeListings env (pre ++ url :: post) st =
        scrapeListings env (pre ++ post) st
    ∧ scrapeListings env [url] st = st
    ∧ (url ∈ allLinks → url ∉ st.scrapedLines →
        url ∈ newListingLinks allLinks st.scrapedLines) := by
  have hg : getListingData url (env url) = none := by
    simp [getListingData, h]
  refine ⟨hg, ?_, ?_, ?_⟩
  · rw [scrapeListings, scrapeListings, scrapeOps_append, scrapeOps_append,
      scrapeOps_cons]
    simp [listingOps, hg]
  · simp [scrapeListings, scrapeOps, listingOps, hg]
  · intro h1 h2
    exact (mem_newListingLinks allLinks st.scrapedLines url).mpr ⟨h1, h2⟩

/-- Witness for C8: a concrete container-less listing page leaves the
concrete state `stA` untouched and stays in the new-link list. -/
theorem c8_container_absent_retry_witness :
    getListingData "a" (envNoContainer "a") = none
    ∧ scrapeListings envNoContainer ["x", "a", "y"] stA =
        scrapeListings envNoContainer ["x", "y"] stA
    ∧ scrapeListings envNoContainer ["a"] stA = stA
    ∧ ("a" : String) ∈ newListingLinks ["a"] stA.scrapedLines := by
  have h := c8_container_absent_retry envNoContainer "a" stA ["a"] ["x"]
    ["y"] rfl
  exact ⟨h.1, by simpa using h.2.1, h.2.2.1,
    h.2.2.2 (by decide) (by decide)⟩

lemma contains_append_eq (s1 s2 : List String) (a : String) :
    (s1 ++ s2).contains a = (s1.contains a || s2.contains a) := by
  by_cases h1 : a ∈ s1 <;> by_cases h2 : a ∈ s2 <;>
    simp [contains_eq_mem_decide, h1, h2]

lemma newListingLinks_append (al s1 s2 : List String) :
    newListingLinks al (s1 ++ s2) =
      (newListingLinks al s1).filter (fun l => ! s2.contains l) := by
  rw [newListingLinks, newListingLinks, List.filter_filter]
  apply List.filter_congr
  intro a _
  rw [contains_append_eq]
  cases s1.contains a <;> cases s2.contains a <;> rfl

lemma csvRowsOf_append (env : String → ListingDOM) (l1 l2 : List String) :
    csvRowsOf env (l1 ++ l2) = csvRowsOf env l1 ++ csvRowsOf env l2 := by
  simp [csvRowsOf]

lemma successLinks_append (env : String → ListingDOM) (l1 l2 : List String) :
    successLinks env (l1 ++ l2) =
      successLinks env l1 ++ successLinks env l2 := by
  simp [successLinks]

lemma resume_filter_eq (env : String → ListingDOM) (links : List String)
    (hnd : links.Nodup) (j : Nat) :
    csvRowsOf env (links.filter
        (fun l => ! (successLinks env (links.take j)).contains l)) =
      csvRowsOf env (links.drop j)
    ∧ successLinks env (links.filter
        (fun l => ! (successLinks env (links.take j)).contains l)) =
      successLinks env (links.drop j) := by
  have hnd2 : (links.take j ++ links.drop j).Nodup := by
    rw [List.take_append_drop]; exact hnd
  have hdisj : (links.take j).Disjoint (links.drop j) :=
    (List.nodup_append.mp hnd2).2.2
  have hq : links.filter
      (fun l => ! (successLinks env (links.take j)).contains l) =
      (links.take j).filter
        (fun l => ! (successLinks env (links.take j)).contains l) ++
      (links.drop j).filter
        (fun l => ! (successLinks env (links.take j)).contains l) := by
    rw [← List.filter_append, List.take_append_drop]
  have hfail : ∀ l ∈ (links.take j).filter
      (fun l => ! (successLinks env (links.take j)).contains l),
      getListingData l (env l) = none := by
    intro l hl
    obtain ⟨hmem, hqq⟩ := List.mem_filter.mp hl
    cases hg : getListingData l (env l) with
    | none => rfl
    | some d =>
      exfalso
      have hin : l ∈ successLinks env (links.take j) :=
        List.mem_filter.mpr ⟨hmem, by simp [hg]⟩
      rw [contains_eq_mem_decide, decide_eq_true hin] at hqq
      simp at hqq
  have hkeep : (links.drop j).filter
      (fun l => ! (successLinks env (links.take j)).contains l) =
      links.drop j := by
    rw [List.filter_eq_self]
    intro a ha
    have hnotin : a ∉ successLinks env (links.take j) := by
      intro hin
      rw [successLinks] at hin
      exact hdisj (List.mem_of_mem_filter hin) ha
    rw [contains_eq_mem_decide, decide_eq_false hnotin]
    rfl
  constructor
  · rw [hq, csvRowsOf_append, hkeep]
    have : csvRowsOf env ((links.take j).filter
        (fun l => ! (successLinks env (links.take j)).contains l)) = [] := by
      rw [csvRowsOf, List.filterMap_eq_nil_iff]
      intro a ha
      rw [hfail a ha]
      rfl
    rw [this, List.nil_append]
  · rw [hq, successLinks_append, hkeep]
    have : successLinks env ((links.take j).filter
        (fun l => ! (successLinks env (links.take j)).contains l)) = [] := by
      rw [successLinks, List.filter_eq_nil_iff]
      intro a ha
      rw [hfail a ha]
      simp
    rw [this, List.nil_append]

/-- C4 counterexample: with one new listing `"a"` that extracts
successfully, the scrape performs two file appends (CSV row, then
processed-set line); a crash after the first append (`k = 1`, strictly
inside the two-append window of this listing) leaves the row written but
the URL unrecorded, and resuming re-scrapes `"a"`: the final CSV holds its
row twice, contradicting "a crash or interruption at any point allows
safe resumption without ... producing duplicate rows". -/
theorem c4_crash_midwindow_duplicates :
    (scrapeOps envA (newListingLinks ["a"] stA.scrapedLines)).length = 2
    ∧ runScraper envA noPages "B" 0
        (crashState envA (newListingLinks ["a"] stA.scrapedLines) stA 1) =
      some { csv := some [listingFieldNames, rowA, rowA],
             scrapedLines := ["a"], cache := some ⟨"B", ["a"]⟩ }
    ∧ ¬ ([listingFieldNames, rowA, rowA] : List (List String)).Nodup := by
  refine ⟨by decide, by decide, by decide⟩

/-- C4 as amended: each successfully extracted listing appends exactly one
CSV row and one processed-set line (in that order); and resumption is safe
for a crash at any listing boundary: if the crash point is the end of the
`j`-th listing's appends (for deduplicated discovered links), re-running
the scraper completes the state to exactly the uninterrupted outcome - one
row and one processed-set line per successful listing, no re-scrape of a
recorded listing and no duplicate rows.  (A crash strictly between a
listing's two appends is not safe, per the counterexample.) -/
theorem c4_append_per_listing_boundary_safe :
    (∀ (env : String → ListingDOM) (link : String) (st : FsState)
       (c : List (List String)) (d : ListingData),
       st.csv = some c → getListingData link (env link) = some d →
       scrapeListings env [link] st =
         { csv := some (c ++ [listingRow d]),
           scrapedLines := st.scrapedLines ++ [link], cache := st.cache })
    ∧ (∀ (env : String → ListingDOM) (pages : String → SearchPage)
         (base : String) (fuel : Nat) (st : FsState) (c : List (List String))
         (al : List String) (j : Nat),
         st.csv = some c → st.cache = some ⟨base, al⟩ → al.Nodup →
         runScraper env pages base fuel
           (crashState env (newListingLinks al st.scrapedLines) st
             ((scrapeOps env
               ((newListingLinks al st.scrapedLines).take j)).length)) =
           some { csv := some (c ++
                    csvRowsOf env (newListingLinks al st.scrapedLines)),
                  scrapedLines := st.scrapedLines ++
                    successLinks env (newListingLinks al st.scrapedLines),
                  cache := some ⟨base, al⟩ }) := by
  constructor
  · intro env link st c d hc hd
    rw [scrapeListings_spec env [link] st c hc]
    simp [csvRowsOf, successLinks, hd]
  · intro env pages base fuel st c al j hc hcache hnd
    have hndl : (newListingLinks al st.scrapedLines).Nodup :=
      List.Nodup.filter _ hnd
    have hsplit : scrapeOps env (newListingLinks al st.scrapedLines) =
        scrapeOps env ((newListingLinks al st.scrapedLines).take j) ++
        scrapeOps env ((newListingLinks al st.scrapedLines).drop j) := by
      rw [← scrapeOps_append, List.take_append_drop]
    have hcrash : crashState env (newListingLinks al st.scrapedLines) st
        ((scrapeOps env
          ((newListingLinks al st.scrapedLines).take j)).length) =
        scrapeListings env ((newListingLinks al st.scrapedLines).take j)
          st := by
      rw [crashState, hsplit, List.take_left, scrapeListings]
    rw [hcrash,
      scrapeListings_spec env ((newListingLinks al st.scrapedLines).take j)
        st c hc, hcache]
    have hhit : getListingLinks base pages fuel
        { csv := some (c ++ csvRowsOf env
            ((newListingLinks al st.scrapedLines).take j)),
          scrapedLines := st.scrapedLines ++
            successLinks env ((newListingLinks al st.scrapedLines).take j),
          cache := some ⟨base, al⟩ } =
        some (al,
          { csv := some (c ++ csvRowsOf env
              ((newListingLinks al st.scrapedLines).take j)),
            scrapedLines := st.scrapedLines ++
              successLinks env
                ((newListingLinks al st.scrapedLines).take j),
            cache := some ⟨base, al⟩ }) := by
      simp [getListingLinks]
    rw [runScraper_spec env pages base fuel _ al _ _ hhit rfl]
    obtain ⟨hrows, hsucc⟩ := resume_filter_eq env
      (newListingLinks al st.scrapedLines) hndl j
    rw [newListingLinks_append al st.scrapedLines
      (successLinks env ((newListingLinks al st.scrapedLines).take j))]
    rw [hrows, hsucc]
    have hrows2 : csvRowsOf env (newListingLinks al st.scrapedLines) =
        csvRowsOf env ((newListingLinks al st.scrapedLines).take j) ++
        csvRowsOf env ((newListingLinks al st.scrapedLines).drop j) := by
      rw [← csvRowsOf_append, List.take_append_drop]
    have hsucc2 : successLinks env (newListingLinks al st.scrapedLines) =
        successLinks env ((newListingLinks al st.scrapedLines).take j) ++
        successLinks env ((newListingLinks al st.scrapedLines).drop j) := by
      rw [← successLinks_append, List.take_append_drop]
    rw [hrows2, hsucc2]
    simp [List.append_assoc]

/-- Witness for C4 (amended): crashing exactly at the boundary after the
first (and only) listing's two appends, the resumed run reproduces the
uninterrupted outcome with the row appearing once. -/
theorem c4_append_per_listing_boundary_safe_witness :
    scrapeListings envA ["a"] stA =
      { csv := some ([listingFieldNames] ++ [rowA]),
        scrapedLines := stA.scrapedLines ++ ["a"], cache := stA.cache }
    ∧ runScraper envA noPages "B" 0
        (crashState envA (newListingLinks ["a"] stA.scrapedLines) stA
          ((scrapeOps envA
            ((newListingLinks ["a"] stA.scrapedLines).take 1)).length)) =
      some { csv := some ([listingFieldNames] ++
               csvRowsOf envA (newListingLinks ["a"] stA.scrapedLines)),
             scrapedLines := stA.scrapedLines ++
               successLinks envA (newListingLinks ["a"] stA.scrapedLines),
             cache := some ⟨"B", ["a"]⟩ } := by
  constructor
  · exact (c4_append_per_listing_boundary_safe.1 envA "a" stA
      [listingFieldNames] dA rfl (by decide))
  · exact c4_append_per_listing_boundary_safe.2 envA noPages "B" 0 stA
      [listingFieldNames] ["a"] 1 rfl rfl (by decide)

lemma crawlAux_stops (base : String) (pages : String → SearchPage) :
    ∀ (fuel n k : Nat), n ≤ k → k < n + fuel →
      (∀ i, n ≤ i → i < k → pageStops base pages i = false) →
      pageStops base pages k = true →
      extractAllListingLinksAux base pages fuel n =
        some ((List.range' n (k - n)).flatMap
            (fun i => linksFromPage (pages (pageUrl base i))) ++
          (if (pages (pageUrl base k)).tiles.isEmpty then []
           else linksFromPage (pages (pageUrl base k)))) := by
  intro fuel
  induction fuel with
  | zero => intro n k h1 h2 _ _; omega
  | succ fuel ih =>
    intro n k h1 h2 hprog hstop
    rcases Nat.eq_or_lt_of_le h1 with rfl | hlt
    · rw [Nat.sub_self]
      cases hemp : (pages (pageUrl base n)).tiles.isEmpty with
      | true => simp [extractAllListingLinksAux, hemp]
      | false =>
        have hnext : (pages (pageUrl base n)).hasNextPage = false := by
          rw [pageStops, hemp] at hstop
          simpa using hstop
        simp [extractAllListingLinksAux, hemp, hnext]
    · have hn : pageStops base pages n = false := hprog n le_rfl hlt
      have hemp : (pages (pageUrl base n)).tiles.isEmpty = false := by
        rw [pageStops] at hn
        exact (Bool.or_eq_false_iff.mp hn).1
      have hnext : (pages (pageUrl base n)).hasNextPage = true := by
        rw [pageStops] at hn
        simpa using (Bool.or_eq_false_iff.mp hn).2
      rw [extractAllListingLinksAux]
      rw [if_neg (by simp [hemp]), if_pos hnext]
      rw [ih (n + 1) k hlt (by omega)
        (fun i hi1 hi2 => hprog i (by omega) hi2) hstop]
      rw [Option.map_some']
      have hkn : k - n = (k - (n + 1)) + 1 := by omega
      rw [hkn, List.range'_succ]
      simp [List.append_assoc]

lemma crawlAux_no_stop (base : String) (pages : String → SearchPage) :
    ∀ (fuel n : Nat), (∀ i, n ≤ i → pageStops base pages i = false) →
      extractAllListingLinksAux base pages fuel n = none := by
  intro fuel
  induction fuel with
  | zero => intro n _; rfl
  | succ fuel ih =>
    intro n h
    have hn := h n le_rfl
    rw [pageStops] at hn
    have hemp := (Bool.or_eq_false_iff.mp hn).1
    have hnext : (pages (pageUrl base n)).hasNextPage = true := by
      simpa using (Bool.or_eq_false_iff.mp hn).2
    rw [extractAllListingLinksAux]
    rw [if_neg (by simp [hemp]), if_pos hnext]
    rw [ih (n + 1) (fun i hi => h i (by omega))]
    rfl

/-- C2: the crawl visits `base?page=1`, `base?page=2`, ... (the `page`
query parameter starts at 1 and goes up by 1, appended with `&` when the
base URL already has a query string).  If pages `1..k-1` all have tiles
and a next-page control and page `k` is the first to stop the loop, the
crawl terminates and returns the concatenation, in page order, of the
links of pages `1..k-1` plus the links of page `k` when page `k` stopped
for lack of a next-page control (it contributes nothing when it had no
tiles).  Conversely, if no page ever satisfies a stop condition the loop
never terminates (it exhausts any fuel). -/
theorem c2_pagination_loop :
    (∀ (base : String) (pages : String → SearchPage) (k fuel : Nat),
      1 ≤ k → k ≤ fuel →
      (∀ i, 1 ≤ i → i < k → pageStops base pages i = false) →
      pageStops base pages k = true →
      extractAllListingLinks base pages fuel =
        some ((List.range' 1 (k - 1)).flatMap
            (fun i => linksFromPage (pages (pageUrl base i))) ++
          (if (pages (pageUrl base k)).tiles.isEmpty then []
           else linksFromPage (pages (pageUrl base k)))))
    ∧ (∀ (base : String) (pages : String → SearchPage) (fuel : Nat),
        (∀ i, 1 ≤ i → pageStops base pages i = false) →
        extractAllListingLinks base pages fuel = none) := by
  constructor
  · intro base pages k fuel h1 h2 hprog hstop
    rw [extractAllListingLinks]
    exact crawlAux_stops base pages fuel 1 k h1 (by omega) hprog hstop
  · intro base pages fuel h
    rw [extractAllListingLinks]
    exact crawlAux_no_stop base pages fuel 1 (fun i hi => h i hi)

/-- Witness for C2: over `pagesW` (page 1: tiles and a next-page control,
page 2: tiles and no next-page control) the crawl returns the page-order
concatenation `["L1", "L2", "L3"]`; over `pagesLoop` (every page has
tiles and a next-page control) it exhausts its fuel. -/
theorem c2_pagination_loop_witness :
    extractAllListingLinks "B" pagesW 5 = some ["L1", "L2", "L3"]
    ∧ extractAllListingLinks "B" pagesLoop 3 = none := by
  constructor
  · exact (c2_pagination_loop.1 "B" pagesW 2 5 (by decide) (by decide)
      (fun i hi1 hi2 => by
        have hi : i = 1 := by omega
        subst hi
        decide)
      (by decide)).trans (by decide)
  · exact c2_pagination_loop.2 "B" pagesLoop 3 (fun i _ => rfl)

end FMScraper
